import Mathlib

/-!
# Shallow embedding of the Lexury e-commerce backend

This file embeds the request handlers of the Express/MongoDB backend that
the specification describes: the cart routes (`backend/routes/cart.js`,
present as `src/unnamed/part_004`), the order routes
(`src/backend/routes/orders.js`) and the review routes and model
(`src/unnamed/part_006`, `src/unnamed/part_002`).

Monetary values are JavaScript numbers in the source; they are modelled as
rationals (`ℚ`), so the literals `9.99` and `0.08` appear as `999/100` and
`8/100`.  Stock counters are modelled as integers (`ℤ`); quantities are
naturals.  MongoDB ObjectIds are modelled as naturals.  The document
collections are modelled as association lists keyed by id; `findById` is
first-match lookup and a `save` of one document rewrites its entry.

The `Cart` and `Order` schema files are not among the provided sources
(only their callers are), so the line-item shape follows spec §3
("items[] of \x7bproduct ref, quantity≥1, variant ref?\x7d"): a cart line
carries its own id, a product id, a quantity, and an optional variant,
with the variant held in populated form (its id together with its
`priceModifier`), which is how every route in the sources reads it.
-/

namespace Lexury

/-- A product variant in populated form: its ObjectId and its
`priceModifier` (source: `productVariantSchema` in
`backend/models/Product.js`; the fields the routes never read are
omitted). -/
structure Variant where
  vid : Nat
  priceModifier : ℚ
  deriving DecidableEq

/-- The slice of a `Product` document that the cart, order and review
routes read or write (`backend/models/Product.js`). -/
structure Product where
  price : ℚ
  stock : ℤ
  merchant : Option Nat
  rating : ℚ
  reviewCount : Nat
  deriving DecidableEq

/-- The product collection: an association list from ObjectId to
document. -/
abbrev ProductDb : Type := List (Nat × Product)

/-- `Product.findById`: first entry with the given id. -/
def findById : ProductDb → Nat → Option Product
  | [], _ => none
  | e :: db, pid => if e.1 = pid then some e.2 else findById db pid

/-- `product.stock = s; await product.save()`: rewrite the stock of the
document with the given id. -/
def saveStock (db : ProductDb) (pid : Nat) (s : ℤ) : ProductDb :=
  List.map (fun e => if e.1 = pid then (e.1, { e.2 with stock := s }) else e) db

/-- `Product.findByIdAndUpdate(pid, \x7brating, reviewCount\x7d)` as used by
`Review.updateProductRating`. -/
def saveRating (db : ProductDb) (pid : Nat) (r : ℚ) (c : Nat) : ProductDb :=
  List.map (fun e => if e.1 = pid then (e.1, { e.2 with rating := r, reviewCount := c }) else e) db

/-- The stock recorded for a product id, when present. -/
def stockOf (db : ProductDb) (pid : Nat) : Option ℤ :=
  (findById db pid).map Product.stock

/-- The price recorded for a product id (`0` when absent; every use is
guarded by a successful `findById`). -/
def priceOf (db : ProductDb) (pid : Nat) : ℚ :=
  match findById db pid with
  | some p => p.price
  | none => 0

/-- `item.variant?.priceModifier || 0`. -/
def modifierOf : Option Variant → ℚ
  | some v => v.priceModifier
  | none => 0

/-- A cart line item: subdocument id, product reference, quantity, and
optional (populated) variant. -/
structure CartItem where
  itemId : Nat
  product : Nat
  quantity : Nat
  variant : Option Variant
  deriving DecidableEq

/-- A user's cart document. -/
structure Cart where
  items : List CartItem
  deriving DecidableEq

/-- The HTTP error classes the embedded handlers produce.  `serverError`
stands for an uncaught exception reaching the catch-all middleware
(HTTP 500). -/
inductive HttpError where
  | badRequest
  | notFound
  | forbidden
  | serverError
  deriving DecidableEq

/-! ## Cart routes (`src/unnamed/part_004`) -/

/-- The helper `calculateCartTotals` of the cart router: a `forEach`
accumulation of `(item.product.price + (item.variant?.priceModifier || 0))
* item.quantity`, with the populated product price read through the
database. -/
def calculateCartTotals (db : ProductDb) (items : List CartItem) : ℚ :=
  List.foldl
    (fun subtotal it => subtotal + (priceOf db it.product + modifierOf it.variant) * (it.quantity : ℚ))
    0 items

/-- The five derived totals the cart and order handlers compute. -/
structure Totals where
  subtotal : ℚ
  discount : ℚ
  shipping : ℚ
  tax : ℚ
  total : ℚ
  deriving DecidableEq

/-- `GET /api/cart`: the totals block of the response
(`subtotal`, `discount = 0`, `shipping = subtotal >= 100 ? 0 : 9.99`,
`tax = subtotal * 0.08`, `total = subtotal + shipping + tax`). -/
def getCartTotals (db : ProductDb) (items : List CartItem) : Totals :=
  let subtotal := calculateCartTotals db items
  let discount : ℚ := 0
  let shipping : ℚ := if subtotal ≥ 100 then 0 else 999/100
  let tax : ℚ := subtotal * (8/100)
  let total : ℚ := subtotal + shipping + tax
  ⟨subtotal, discount, shipping, tax, total⟩

/-- The `findIndex` predicate of `POST /api/cart/items`:
`item.product.toString() === productId && (!variant ||
item.variant?.toString() === variant)`, with `vkey` the requested
variant id. -/
def matchesLine (pid : Nat) (vkey : Option Nat) (it : CartItem) : Bool :=
  it.product == pid && (vkey == none || it.variant.map Variant.vid == vkey)

/-- The merge-or-append step of `POST /api/cart/items`: increment the
quantity of the first line matched by `matchesLine`, else push a new
line at the end (the fresh subdocument id is `n`). -/
def mergeOrAppend (pid q : Nat) (v : Option Variant) (n : Nat) :
    List CartItem → List CartItem
  | [] => [⟨n, pid, q, v⟩]
  | it :: rest =>
    if matchesLine pid (v.map Variant.vid) it then
      { it with quantity := it.quantity + q } :: rest
    else
      it :: mergeOrAppend pid q v n rest

/-- `POST /api/cart/items`: validate `quantity ≥ 1`, require the product
to exist, reject when `product.stock < quantity`, then merge into an
existing line or append a new one. -/
def addItem (db : ProductDb) (cart : Cart) (pid q : Nat) (v : Option Variant)
    (n : Nat) : HttpError ⊕ Cart :=
  if q < 1 then Sum.inl HttpError.badRequest
  else
    match findById db pid with
    | none => Sum.inl HttpError.notFound
    | some product =>
      if product.stock < (q : ℤ) then Sum.inl HttpError.badRequest
      else Sum.inr ⟨mergeOrAppend pid q v n cart.items⟩

/-- `cart.items.id(itemId)`: first line with the given subdocument id. -/
def findLine (itemId : Nat) : List CartItem → Option CartItem
  | [] => none
  | it :: rest => if it.itemId = itemId then some it else findLine itemId rest

/-- `item.quantity = quantity` on the line found by `cart.items.id`:
rewrite the quantity of the first line with the given subdocument id. -/
def setQtyFirst (itemId q : Nat) : List CartItem → List CartItem
  | [] => []
  | it :: rest =>
    if it.itemId = itemId then { it with quantity := q } :: rest
    else it :: setQtyFirst itemId q rest

/-- `PUT /api/cart/items/:itemId`: validate `quantity ≥ 1`, find the line
by id (404 when absent), re-read the product and reject when
`product.stock < quantity`, then set the line's quantity.  The source
dereferences `product.stock` without a null check, so a dangling product
reference raises (500). -/
def updateItem (db : ProductDb) (cart : Cart) (itemId q : Nat) :
    HttpError ⊕ Cart :=
  if q < 1 then Sum.inl HttpError.badRequest
  else
    match findLine itemId cart.items with
    | none => Sum.inl HttpError.notFound
    | some it =>
      match findById db it.product with
      | none => Sum.inl HttpError.serverError
      | some product =>
        if product.stock < (q : ℤ) then Sum.inl HttpError.badRequest
        else Sum.inr ⟨setQtyFirst itemId q cart.items⟩

/-! ## Order routes (`src/backend/routes/orders.js`) -/

/-- The order status enumeration (spec §3; mirrored by the route
validator's `isIn` list). -/
inductive OrderStatus where
  | pending
  | confirmed
  | processing
  | shipped
  | delivered
  | cancelled
  | returned
  deriving DecidableEq

/-- An order line item as pushed by `POST /api/orders`:
`\x7bproduct, quantity, variant, price: product.price\x7d`. -/
structure OrderItem where
  product : Nat
  quantity : Nat
  variant : Option Variant
  price : ℚ
  deriving DecidableEq

/-- The slice of an `Order` document the routes read and write.  The
`Order` schema file is not among the provided sources; the fields follow
spec §3, with status defaulting to `pending` on creation. -/
structure Order where
  user : Nat
  items : List OrderItem
  subtotal : ℚ
  discount : ℚ
  shipping : ℚ
  tax : ℚ
  total : ℚ
  status : OrderStatus
  deriving DecidableEq

/-- The per-item loop of `POST /api/orders`: for each cart line, re-read
the product (404 when absent), reject when `product.stock <
item.quantity` (400), accumulate `(product.price +
(item.variant?.priceModifier || 0)) * item.quantity` into the subtotal,
push the snapshot `\x7bproduct, quantity, variant, price: product.price\x7d`,
and immediately decrement and save the product's stock.  On failure the
database is returned as already mutated by the earlier iterations. -/
def processItems (db : ProductDb) (subtotal : ℚ) (acc : List OrderItem) :
    List CartItem → (HttpError × ProductDb) ⊕ (ProductDb × ℚ × List OrderItem)
  | [] => Sum.inr (db, subtotal, acc.reverse)
  | item :: rest =>
    match findById db item.product with
    | none => Sum.inl (HttpError.notFound, db)
    | some product =>
      if product.stock < (item.quantity : ℤ) then
        Sum.inl (HttpError.badRequest, db)
      else
        let price := product.price + modifierOf item.variant
        let db2 := saveStock db item.product (product.stock - (item.quantity : ℤ))
        processItems db2 (subtotal + price * (item.quantity : ℚ))
          (⟨item.product, item.quantity, item.variant, product.price⟩ :: acc) rest

/-- `POST /api/orders`: reject an empty (or missing) cart (400), run the
stock-check-and-decrement loop, then compute `discount = 0`,
`shipping = subtotal >= 100 ? 0 : 9.99`, `tax = subtotal * 0.08`,
`total = subtotal + shipping + tax`, persist the order and clear the
cart.  On failure the error is paired with the database as left by the
loop. -/
def createOrder (uid : Nat) (cart : Cart) (db : ProductDb) :
    (HttpError × ProductDb) ⊕ (Order × ProductDb × Cart) :=
  if cart.items = [] then Sum.inl (HttpError.badRequest, db)
  else
    match processItems db 0 [] cart.items with
    | Sum.inl e => Sum.inl e
    | Sum.inr (db2, subtotal, orderItems) =>
      let discount : ℚ := 0
      let shipping : ℚ := if subtotal ≥ 100 then 0 else 999/100
      let tax : ℚ := subtotal * (8/100)
      let total : ℚ := subtotal + shipping + tax
      Sum.inr (⟨uid, orderItems, subtotal, discount, shipping, tax, total,
        OrderStatus.pending⟩, db2, ⟨[]⟩)

/-- The stock-restoration loop of `PUT /api/orders/:id/cancel`: for each
order item, re-read the product and, when it still exists, add the
item's quantity back to its stock. -/
def restoreStock (db : ProductDb) : List OrderItem → ProductDb
  | [] => db
  | it :: rest =>
    match findById db it.product with
    | none => restoreStock db rest
    | some p => restoreStock (saveStock db it.product (p.stock + (it.quantity : ℤ))) rest

/-- `PUT /api/orders/:id/cancel`: owner check (403), reject when the
status is `cancelled`, `delivered` or `shipped` (400, order and stock
untouched), else restore every item's stock and set the status to
`cancelled`. -/
def cancelOrder (uid : Nat) (order : Order) (db : ProductDb) :
    (HttpError × Order × ProductDb) ⊕ (Order × ProductDb) :=
  if order.user ≠ uid then Sum.inl (HttpError.forbidden, order, db)
  else if order.status ∈ ([OrderStatus.cancelled, OrderStatus.delivered,
      OrderStatus.shipped] : List OrderStatus) then
    Sum.inl (HttpError.badRequest, order, db)
  else
    Sum.inr ({ order with status := OrderStatus.cancelled },
      restoreStock db order.items)

/-- The caller roles distinguished by the auth middleware. -/
inductive Role where
  | user
  | merchant
  | admin
  deriving DecidableEq

/-- The status strings accepted by the `isIn` validator of
`PUT /api/orders/:id/status`. -/
def statusEnum : List String :=
  ["pending", "confirmed", "processing", "shipped", "delivered", "cancelled", "returned"]

/-- Decode a requested status string into the enumeration; `none` for a
string outside `statusEnum`. -/
def parseStatus (s : String) : Option OrderStatus :=
  if s = "pending" then some OrderStatus.pending
  else if s = "confirmed" then some OrderStatus.confirmed
  else if s = "processing" then some OrderStatus.processing
  else if s = "shipped" then some OrderStatus.shipped
  else if s = "delivered" then some OrderStatus.delivered
  else if s = "cancelled" then some OrderStatus.cancelled
  else if s = "returned" then some OrderStatus.returned
  else none

/-- The merchant-ownership scan of `PUT /api/orders/:id/status`:
`order.items.some(item => item.product.merchant === merchantId)` over
populated products (a missing product or a product without a merchant
contributes `false`). -/
def hasMerchantProduct (db : ProductDb) (order : Order) (uid : Nat) : Bool :=
  order.items.any (fun it =>
    match findById db it.product with
    | none => false
    | some p => p.merchant == some uid)

/-- `PUT /api/orders/:id/status`: `authorize('admin','merchant')` rejects
plain users (403); the `isIn` validator rejects a status outside the
enumeration (400); a missing order is 404; a merchant owning no product
of the order is rejected (403); otherwise the status is assigned
unconditionally, whatever the current status. -/
def updateOrderStatus (role : Role) (uid : Nat) (reqStatus : String)
    (order : Option Order) (db : ProductDb) : HttpError ⊕ Order :=
  if role = Role.user then Sum.inl HttpError.forbidden
  else
    match parseStatus reqStatus with
    | none => Sum.inl HttpError.badRequest
    | some st =>
      match order with
      | none => Sum.inl HttpError.notFound
      | some o =>
        if role = Role.merchant ∧ ¬ hasMerchantProduct db o uid then
          Sum.inl HttpError.forbidden
        else
          Sum.inr { o with status := st }

/-! ## Review model and routes (`src/unnamed/part_002`, `src/unnamed/part_006`) -/

/-- A review document: id, product and user references, and a 1–5
rating (the comment plays no role in any claim-relevant computation). -/
structure Review where
  rid : Nat
  product : Nat
  user : Nat
  rating : Nat
  deriving DecidableEq

/-- `Math.round(x * 10) / 10` of the rating recompute, on rationals:
JavaScript `Math.round` is `⌊x + 1/2⌋`, and Mathlib's `round` is exactly
that. -/
def roundTo1 (x : ℚ) : ℚ := (round (x * 10) : ℤ) / 10

/-- `Review.updateProductRating(productId)`: gather the product's
reviews; with none, set `rating = 0` and `reviewCount = 0`; otherwise
set `rating` to the mean rounded to one decimal and `reviewCount` to the
count. -/
def updateProductRating (db : ProductDb) (reviews : List Review) (pid : Nat) :
    ProductDb :=
  let rs := reviews.filter (fun r => r.product == pid)
  if rs.length = 0 then saveRating db pid 0 0
  else
    let totalRating : ℚ := (rs.map (fun r => (r.rating : ℚ))).sum
    let averageRating := totalRating / (rs.length : ℚ)
    saveRating db pid (roundTo1 averageRating) rs.length

/-- `POST /api/reviews`: the validator requires an integer rating in
1–5 (400); the product must exist (404); a second review by the same
user for the same product is rejected (400) with nothing inserted;
otherwise the review is inserted and the post-save hook recomputes the
product's rating aggregate. -/
def createReview (db : ProductDb) (reviews : List Review) (uid pid rating n : Nat) :
    HttpError ⊕ (List Review × ProductDb) :=
  if rating < 1 ∨ 5 < rating then Sum.inl HttpError.badRequest
  else
    match findById db pid with
    | none => Sum.inl HttpError.notFound
    | some _ =>
      if reviews.any (fun r => r.product == pid && r.user == uid) then
        Sum.inl HttpError.badRequest
      else
        let reviews2 := reviews ++ [⟨n, pid, uid, rating⟩]
        Sum.inr (reviews2, updateProductRating db reviews2 pid)

/-- `Review.findById`: first review with the given id. -/
def findReview (rid : Nat) : List Review → Option Review
  | [] => none
  | r :: rest => if r.rid = rid then some r else findReview rid rest

/-- Rewrite the rating of the review with the given id (first match),
as `review.rating = req.body.rating; await review.save()` does. -/
def setReviewRating (rid rating : Nat) : List Review → List Review
  | [] => []
  | r :: rest =>
    if r.rid = rid then { r with rating := rating } :: rest
    else r :: setReviewRating rid rating rest

/-- `PUT /api/reviews/:id` with a rating in the body: find the review
(404), owner check (403), validator bound (400), assign the rating and
save; the post-save hook recomputes the product's aggregate. -/
def updateReview (db : ProductDb) (reviews : List Review) (uid rid rating : Nat) :
    HttpError ⊕ (List Review × ProductDb) :=
  if rating < 1 ∨ 5 < rating then Sum.inl HttpError.badRequest
  else
    match findReview rid reviews with
    | none => Sum.inl HttpError.notFound
    | some r =>
      if r.user ≠ uid then Sum.inl HttpError.forbidden
      else
        let reviews2 := setReviewRating rid rating reviews
        Sum.inr (reviews2, updateProductRating db reviews2 r.product)

/-- Remove the review with the given id (first match), as
`Review.findByIdAndDelete` does. -/
def removeReview (rid : Nat) : List Review → List Review
  | [] => []
  | r :: rest => if r.rid = rid then rest else r :: removeReview rid rest

/-- `DELETE /api/reviews/:id`: find the review (404), owner check (403),
delete it; the post-`findOneAndDelete` hook recomputes the aggregate of
the deleted review's product. -/
def deleteReview (db : ProductDb) (reviews : List Review) (uid rid : Nat) :
    HttpError ⊕ (List Review × ProductDb) :=
  match findReview rid reviews with
  | none => Sum.inl HttpError.notFound
  | some r =>
    if r.user ≠ uid then Sum.inl HttpError.forbidden
    else
      let reviews2 := removeReview rid reviews
      Sum.inr (reviews2, updateProductRating db reviews2 r.product)

/-! ## Basic lemmas about the document store -/

/-- `findById` after rewriting one entry: the looked-up document is
transformed exactly when the keys agree. -/
theorem findById_update (db : ProductDb) (pid : Nat) (f : Product → Product) (q : Nat) :
    findById (List.map (fun e => if e.1 = pid then (e.1, f e.2) else e) db) q =
      (findById db q).map (fun p => if q = pid then f p else p) := by
  induction db with
  | nil => rfl
  | cons e db ih =>
    by_cases h1 : e.1 = pid <;> by_cases h2 : e.1 = q <;>
      simp_all [findById]

/-- `findById` after a stock save. -/
theorem findById_saveStock (db : ProductDb) (pid : Nat) (s : ℤ) (q : Nat) :
    findById (saveStock db pid s) q =
      (findById db q).map (fun p => if q = pid then { p with stock := s } else p) :=
  findById_update db pid (fun p => { p with stock := s }) q

/-- `findById` after a rating save. -/
theorem findById_saveRating (db : ProductDb) (pid : Nat) (r : ℚ) (c : Nat) (q : Nat) :
    findById (saveRating db pid r c) q =
      (findById db q).map
        (fun p => if q = pid then { p with rating := r, reviewCount := c } else p) :=
  findById_update db pid (fun p => { p with rating := r, reviewCount := c }) q

/-- Saving stock never changes any price. -/
theorem priceOf_saveStock (db : ProductDb) (pid : Nat) (s : ℤ) (q : Nat) :
    priceOf (saveStock db pid s) q = priceOf db q := by
  unfold priceOf
  rw [findById_saveStock]
  by_cases h : q = pid <;> cases findById db q <;> simp [h]

/-! ## The subtotal formula -/

/-- The specification's subtotal: the sum over line items of
`(product price + variant priceModifier) × quantity`, prices read from
the given database state. -/
def lineSum (db : ProductDb) (items : List CartItem) : ℚ :=
  (items.map (fun it => (priceOf db it.product + modifierOf it.variant) * (it.quantity : ℚ))).sum

/-- The `forEach` accumulation of `calculateCartTotals` computes
`lineSum`. -/
theorem calculateCartTotals_eq_lineSum (db : ProductDb) (items : List CartItem) :
    calculateCartTotals db items = lineSum db items := by
  suffices h : ∀ (l : List CartItem) (a : ℚ),
      List.foldl
        (fun subtotal it =>
          subtotal + (priceOf db it.product + modifierOf it.variant) * (it.quantity : ℚ))
        a l = a + lineSum db l by
    simpa using h items 0
  intro l
  induction l with
  | nil => intro a; simp [lineSum]
  | cons it rest ih =>
    intro a
    simp only [List.foldl_cons, ih, lineSum, List.map_cons, List.sum_cons]
    ring

/-- Saving stock never changes `lineSum`. -/
theorem lineSum_saveStock (db : ProductDb) (pid : Nat) (s : ℤ) (items : List CartItem) :
    lineSum (saveStock db pid s) items = lineSum db items := by
  simp [lineSum, priceOf_saveStock]

/-- The order-item snapshot `POST /api/orders` records for one cart
line: product, quantity, variant, and the product's base price as read
from the given database state. -/
def snapItem (db : ProductDb) (it : CartItem) : OrderItem :=
  ⟨it.product, it.quantity, it.variant, priceOf db it.product⟩

/-- Saving stock never changes a snapshot. -/
theorem snapItem_saveStock (db : ProductDb) (pid : Nat) (s : ℤ) (it : CartItem) :
    snapItem (saveStock db pid s) it = snapItem db it := by
  simp [snapItem, priceOf_saveStock]

/-- Characterization of a successful run of the stock-check loop of
`POST /api/orders`: the produced order items are the snapshots of the
cart lines against the initial database state, and the accumulated
subtotal grows by exactly `lineSum` of the cart lines. -/
theorem processItems_inr (items : List CartItem) (db : ProductDb) (st : ℚ)
    (acc : List OrderItem) (db2 : ProductDb) (st2 : ℚ) (out : List OrderItem)
    (h : processItems db st acc items = Sum.inr (db2, st2, out)) :
    out = acc.reverse ++ items.map (snapItem db) ∧ st2 = st + lineSum db items := by
  induction items generalizing db st acc with
  | nil =>
    simp only [processItems, Sum.inr.injEq, Prod.mk.injEq] at h
    obtain ⟨-, hst, hout⟩ := h
    simp [← hout, ← hst, lineSum]
  | cons item rest ih =>
    simp only [processItems] at h
    cases hfind : findById db item.product with
    | none => rw [hfind] at h; exact absurd h (by simp)
    | some product =>
      rw [hfind] at h
      dsimp only at h
      by_cases hs : product.stock < (item.quantity : ℤ)
      · rw [if_pos hs] at h; exact absurd h (by simp)
      · rw [if_neg hs] at h
        obtain ⟨hout, hst⟩ := ih _ _ _ h
        have hfun : snapItem (saveStock db item.product (product.stock - (item.quantity : ℤ)))
            = snapItem db :=
          funext (snapItem_saveStock db item.product _)
        constructor
        · rw [hout, hfun]
          simp only [List.reverse_cons, List.map_cons, List.append_assoc,
            List.singleton_append]
          congr 2
          simp [snapItem, priceOf, hfind]
        · rw [hst, lineSum_saveStock]
          simp only [lineSum, List.map_cons, List.sum_cons]
          have hp : priceOf db item.product = product.price := by
            simp [priceOf, hfind]
          rw [hp]
          ring

/-! ## Stock restoration on cancellation -/

/-- The total quantity an order records for one product id. -/
def totalQty (items : List OrderItem) (pid : Nat) : ℤ :=
  ((items.filter (fun it => it.product == pid)).map (fun it => (it.quantity : ℤ))).sum

/-- Effect of the cancellation loop on one product's stock: the stock
grows by exactly the total quantity the order items record for it
(and a product absent from the store stays absent). -/
theorem totalQty_cons (it : OrderItem) (rest : List OrderItem) (pid : Nat) :
    totalQty (it :: rest) pid
      = (if it.product = pid then (it.quantity : ℤ) else 0) + totalQty rest pid := by
  simp only [totalQty, List.filter_cons]
  by_cases h : it.product = pid
  · simp [h]
  · simp [h]

theorem stockOf_restoreStock (items : List OrderItem) (db : ProductDb) (pid : Nat) :
    stockOf (restoreStock db items) pid
      = (stockOf db pid).map (fun s => s + totalQty items pid) := by
  induction items generalizing db with
  | nil =>
    simp [restoreStock, totalQty]
  | cons it rest ih =>
    simp only [restoreStock]
    have hp2 : ∀ h : ¬ it.product = pid, ¬ pid = it.product := fun h h2 => h h2.symm
    cases hfind : findById db it.product with
    | none =>
      rw [ih, totalQty_cons]
      by_cases hp : it.product = pid
      · subst hp
        simp [stockOf, hfind]
      · rw [if_neg hp]
        cases stockOf db pid <;> simp
    | some p =>
      rw [ih, totalQty_cons]
      by_cases hp : it.product = pid
      · subst hp
        have h1 : stockOf (saveStock db it.product (p.stock + (it.quantity : ℤ))) it.product
            = some (p.stock + (it.quantity : ℤ)) := by
          simp [stockOf, findById_saveStock, hfind]
        have h2 : stockOf db it.product = some p.stock := by simp [stockOf, hfind]
        rw [h1, h2, if_pos rfl]
        simp only [Option.map_some', Option.some.injEq]
        ring
      · have h1 : stockOf (saveStock db it.product (p.stock + (it.quantity : ℤ))) pid
            = stockOf db pid := by
          simp only [stockOf, findById_saveStock]
          cases findById db pid
          · rfl
          · simp [if_neg (hp2 hp)]
        rw [h1, if_neg hp]
        cases stockOf db pid <;> simp

/-! ## Status strings -/

/-- Membership in the validator's `isIn` list coincides with successful
decoding of the status string. -/
theorem parseStatus_isSome_iff (s : String) :
    (parseStatus s).isSome = true ↔ s ∈ statusEnum := by
  unfold parseStatus statusEnum
  split_ifs with h1 h2 h3 h4 h5 h6 h7 <;> simp_all

/-! ## Cart line keys and the merge step -/

/-- The identifying pair of a cart line: its product id and its variant
id (when present). -/
def lineKey (it : CartItem) : Nat × Option Nat :=
  (it.product, it.variant.map Variant.vid)

/-- For a request carrying a variant, the `findIndex` predicate matches
exactly the lines with the same (product, variant) key. -/
theorem matchesLine_some_iff (pid k : Nat) (it : CartItem) :
    matchesLine pid (some k) it = true ↔ lineKey it = (pid, some k) := by
  simp [matchesLine, lineKey, Prod.ext_iff, and_comm]

/-- For a request without a variant, the predicate matches exactly the
lines with the same product. -/
theorem matchesLine_none_iff (pid : Nat) (it : CartItem) :
    matchesLine pid none it = true ↔ it.product = pid := by
  simp [matchesLine]

/-- When no line matches, the merge step appends a fresh line. -/
theorem mergeOrAppend_no_match (pid q : Nat) (v : Option Variant) (n : Nat)
    (l : List CartItem) (h : ∀ it ∈ l, matchesLine pid (v.map Variant.vid) it = false) :
    mergeOrAppend pid q v n l = l ++ [⟨n, pid, q, v⟩] := by
  induction l with
  | nil => rfl
  | cons it rest ih =>
    have h1 := h it (by simp)
    simp only [mergeOrAppend, h1, Bool.false_eq_true, if_false, List.cons_append,
      List.cons.injEq, true_and]
    exact ih (fun x hx => h x (by simp [hx]))

/-- When the list splits as non-matching prefix, first match, suffix,
the merge step increments the quantity of that first match in place. -/
theorem mergeOrAppend_first_match (pid q : Nat) (v : Option Variant) (n : Nat)
    (pre post : List CartItem) (it : CartItem)
    (hpre : ∀ x ∈ pre, matchesLine pid (v.map Variant.vid) x = false)
    (hit : matchesLine pid (v.map Variant.vid) it = true) :
    mergeOrAppend pid q v n (pre ++ it :: post)
      = pre ++ { it with quantity := it.quantity + q } :: post := by
  induction pre with
  | nil => simp [mergeOrAppend, hit]
  | cons x rest ih =>
    have h1 := hpre x (by simp)
    simp only [List.cons_append, mergeOrAppend, h1, Bool.false_eq_true, if_false,
      List.cons.injEq, true_and]
    exact ih (fun y hy => hpre y (by simp [hy]))

/-- The merge step leaves the multiset of line keys unchanged when some
line matches, and appends the request's key otherwise. -/
theorem mergeOrAppend_keys (pid q : Nat) (v : Option Variant) (n : Nat)
    (l : List CartItem) :
    ((mergeOrAppend pid q v n l).map lineKey = l.map lineKey
        ∧ ∃ it ∈ l, matchesLine pid (v.map Variant.vid) it = true)
    ∨ ((mergeOrAppend pid q v n l).map lineKey
          = l.map lineKey ++ [(pid, v.map Variant.vid)]
        ∧ ∀ it ∈ l, matchesLine pid (v.map Variant.vid) it = false) := by
  induction l with
  | nil =>
    right
    constructor
    · simp [mergeOrAppend, lineKey]
    · simp
  | cons it rest ih =>
    by_cases h : matchesLine pid (v.map Variant.vid) it = true
    · left
      constructor
      · simp [mergeOrAppend, h, lineKey]
      · exact ⟨it, by simp, h⟩
    · have hf : matchesLine pid (v.map Variant.vid) it = false := by
        simpa using h
      rcases ih with ⟨hkeys, it2, hmem, hmatch⟩ | ⟨hkeys, hall⟩
      · left
        constructor
        · simp [mergeOrAppend, hf, hkeys]
        · exact ⟨it2, by simp [hmem], hmatch⟩
      · right
        constructor
        · simp [mergeOrAppend, hf, hkeys]
        · intro x hx
          rcases List.mem_cons.mp hx with rfl | hx2
          · exact hf
          · exact hall x hx2

/-- The appended key is fresh: if no line matches the request, no line
has the request's key. -/
theorem key_not_mem_of_no_match (pid : Nat) (v : Option Variant)
    (l : List CartItem) (hall : ∀ it ∈ l, matchesLine pid (v.map Variant.vid) it = false) :
    (pid, v.map Variant.vid) ∉ l.map lineKey := by
  intro hmem
  rcases List.mem_map.mp hmem with ⟨it, hit, hkey⟩
  cases v with
  | none =>
    have hprod : it.product = pid := by
      have := congrArg Prod.fst hkey
      simpa [lineKey] using this
    have hfalse := hall it hit
    have htrue : matchesLine pid (Option.map Variant.vid none) it = true := by
      simpa using (matchesLine_none_iff pid it).mpr hprod
    rw [htrue] at hfalse
    exact absurd hfalse (by simp)
  | some vv =>
    have hfalse := hall it hit
    have h2 : matchesLine pid (some vv.vid) it = true :=
      (matchesLine_some_iff pid vv.vid it).mpr (by simpa using hkey)
    simp only [Option.map_some'] at hfalse
    rw [h2] at hfalse
    exact absurd hfalse (by simp)

/-! ## Review aggregate correctness -/

/-- The product aggregate the specification demands after a review
mutation: with no reviews for the product, rating `0` and count `0`;
otherwise rating = mean of the ratings rounded to one decimal and
count = number of reviews. -/
def aggCorrect (db : ProductDb) (reviews : List Review) (pid : Nat) : Prop :=
  ∀ p, findById db pid = some p →
    (reviews.filter (fun r => r.product == pid) = [] →
      p.rating = 0 ∧ p.reviewCount = 0) ∧
    (reviews.filter (fun r => r.product == pid) ≠ [] →
      p.rating = roundTo1
          (((reviews.filter (fun r => r.product == pid)).map (fun r => (r.rating : ℚ))).sum
            / ((reviews.filter (fun r => r.product == pid)).length : ℚ)) ∧
      p.reviewCount = (reviews.filter (fun r => r.product == pid)).length)

/-- `Review.updateProductRating` establishes the aggregate property for
the product it recomputes. -/
theorem updateProductRating_aggCorrect (db : ProductDb) (reviews : List Review)
    (pid : Nat) : aggCorrect (updateProductRating db reviews pid) reviews pid := by
  intro p hp
  unfold updateProductRating at hp
  by_cases hlen : (reviews.filter (fun r => r.product == pid)).length = 0
  · rw [if_pos hlen] at hp
    have hnil : reviews.filter (fun r => r.product == pid) = [] :=
      List.eq_nil_of_length_eq_zero hlen
    rw [findById_saveRating] at hp
    constructor
    · intro _
      cases hfind : findById db pid with
      | none => rw [hfind] at hp; exact absurd hp (by simp)
      | some p0 =>
        rw [hfind] at hp
        simp only [Option.map_some', Option.some.injEq, if_pos rfl] at hp
        rw [← hp]
        exact ⟨rfl, rfl⟩
    · intro hne
      exact absurd hnil hne
  · rw [if_neg hlen] at hp
    have hne : reviews.filter (fun r => r.product == pid) ≠ [] := by
      intro hnil
      exact hlen (by rw [hnil]; rfl)
    dsimp only at hp
    rw [findById_saveRating] at hp
    constructor
    · intro hnil
      exact absurd hnil hne
    · intro _
      cases hfind : findById db pid with
      | none => rw [hfind] at hp; exact absurd hp (by simp)
      | some p0 =>
        rw [hfind] at hp
        simp only [Option.map_some', Option.some.injEq, if_pos rfl] at hp
        rw [← hp]
        exact ⟨rfl, rfl⟩

/-! ## Concrete stores and carts used to instantiate the theorems -/

/-- A one-product store: product `1` priced `50` with stock `5`. -/
def wDb : ProductDb := [(1, ⟨50, 5, none, 0, 0⟩)]

/-- A cart holding two units of product `1`. -/
def wCart : Cart := ⟨[⟨0, 1, 2, none⟩]⟩

/-- The order `POST /api/orders` builds for `wCart` against `wDb`. -/
def wOrder : Order := ⟨3, [⟨1, 2, none, 50⟩], 100, 0, 0, 8, 108, OrderStatus.pending⟩

/-- Evaluation of order creation on the concrete one-item cart: subtotal
`100`, free shipping, tax `8`, total `108`, stock decremented to `3`. -/
theorem createOrder_wCart :
    createOrder 3 wCart wDb = Sum.inr (wOrder, [(1, ⟨50, 3, none, 0, 0⟩)], ⟨[]⟩) := by
  simp only [createOrder, wCart, wDb, wOrder]
  norm_num [processItems, findById, saveStock, modifierOf]

/-! ## C2: the totals formula -/

/-- C2: for every cart read (`GET /api/cart`) and for order creation,
`total = subtotal - discount + shipping + tax` with
`subtotal = Σ (price + variant modifier) × quantity`, `discount = 0`,
`shipping = 0` iff `subtotal ≥ 100` else `9.99`, and
`tax = 0.08 × (subtotal - discount)`; in particular one item priced 50
at quantity 2 yields subtotal 100, shipping 0, tax 8, total 108. -/
theorem claim2_totalsFormula (db : ProductDb) (items : List CartItem)
    (uid : Nat) (cart : Cart) :
    ((getCartTotals db items).total
        = (getCartTotals db items).subtotal - (getCartTotals db items).discount
          + (getCartTotals db items).shipping + (getCartTotals db items).tax
      ∧ (getCartTotals db items).subtotal = lineSum db items
      ∧ (getCartTotals db items).discount = 0
      ∧ (getCartTotals db items).shipping
          = (if (getCartTotals db items).subtotal ≥ 100 then 0 else 999/100)
      ∧ (getCartTotals db items).tax
          = (8/100) * ((getCartTotals db items).subtotal - (getCartTotals db items).discount))
    ∧ (∀ o db2 c2, createOrder uid cart db = Sum.inr (o, db2, c2) →
        o.total = o.subtotal - o.discount + o.shipping + o.tax
        ∧ o.subtotal = lineSum db cart.items
        ∧ o.discount = 0
        ∧ o.shipping = (if o.subtotal ≥ 100 then 0 else 999/100)
        ∧ o.tax = (8/100) * (o.subtotal - o.discount))
    ∧ getCartTotals wDb wCart.items = ⟨100, 0, 0, 8, 108⟩ := by
  refine ⟨⟨?_, ?_, rfl, rfl, ?_⟩, ?_, ?_⟩
  · simp only [getCartTotals]
    ring
  · simp only [getCartTotals, calculateCartTotals_eq_lineSum]
  · simp only [getCartTotals]
    ring
  · intro o db2 c2 h
    unfold createOrder at h
    by_cases hc : cart.items = []
    · rw [if_pos hc] at h
      exact absurd h (by simp)
    · rw [if_neg hc] at h
      cases hpi : processItems db 0 [] cart.items with
      | inl e =>
        rw [hpi] at h
        exact absurd h (by simp)
      | inr res =>
        obtain ⟨db3, st, out⟩ := res
        rw [hpi] at h
        dsimp only at h
        rw [Sum.inr.injEq, Prod.mk.injEq] at h
        obtain ⟨ho, -⟩ := h
        obtain ⟨-, hst⟩ := processItems_inr cart.items db 0 [] db3 st out hpi
        rw [← ho]
        have hsub : st = lineSum db cart.items := by rw [hst]; ring
        refine ⟨by dsimp only; ring, hsub, rfl, rfl, by dsimp only; ring⟩
  · unfold getCartTotals calculateCartTotals wDb wCart priceOf findById modifierOf
    norm_num

/-- Witness for C2 at the concrete one-item cart: the persisted order
satisfies the totals formula and the subtotal sum. -/
theorem claim2_totalsFormula_witness :
    wOrder.total = wOrder.subtotal - wOrder.discount + wOrder.shipping + wOrder.tax
      ∧ wOrder.subtotal = lineSum wDb wCart.items := by
  have h := (claim2_totalsFormula wDb [] 3 wCart).2.1 wOrder
    [(1, ⟨50, 3, none, 0, 0⟩)] ⟨[]⟩ createOrder_wCart
  exact ⟨h.1, h.2.1⟩

/-! ## C9: the persisted order-item price snapshot -/

/-- A store with a variant-carrying product: product `1` priced `50`,
stock `5`, and the cart orders one unit with variant `7` whose
`priceModifier` is `10`. -/
def vDb : ProductDb := [(1, ⟨50, 5, none, 0, 0⟩)]

/-- A cart holding one unit of product `1` with a variant adding 10. -/
def vCart : Cart := ⟨[⟨0, 1, 1, some ⟨7, 10⟩⟩]⟩

/-- The order built for `vCart`: subtotal 60 includes the variant
modifier, yet the persisted item price is the base 50. -/
def vOrder : Order :=
  ⟨4, [⟨1, 1, some ⟨7, 10⟩, 50⟩], 60, 0, 999/100, 24/5, 60 + 999/100 + 24/5,
    OrderStatus.pending⟩

/-- Evaluation of order creation on the variant cart. -/
theorem createOrder_vCart :
    createOrder 4 vCart vDb = Sum.inr (vOrder, [(1, ⟨50, 4, none, 0, 0⟩)], ⟨[]⟩) := by
  simp only [createOrder, vCart, vDb, vOrder]
  norm_num [processItems, findById, saveStock, modifierOf]

/-- C9 as stated is false: for an item carrying a variant with a nonzero
`priceModifier`, the recorded price is the base product price, not
price + modifier, and the persisted subtotal is not the sum of recorded
price × quantity. -/
theorem claim9_counterexample :
    ∃ o db2 c2, createOrder 4 vCart vDb = Sum.inr (o, db2, c2)
      ∧ o.items.map OrderItem.price = [50]
      ∧ priceOf vDb 1 + modifierOf (some ⟨7, 10⟩) = 60
      ∧ o.subtotal = 60
      ∧ (o.items.map (fun it => it.price * (it.quantity : ℚ))).sum = 50
      ∧ (50 : ℚ) ≠ 60 := by
  refine ⟨vOrder, [(1, ⟨50, 4, none, 0, 0⟩)], ⟨[]⟩, createOrder_vCart, ?_, ?_, rfl, ?_, ?_⟩
  · simp [vOrder]
  · norm_num [priceOf, vDb, findById, modifierOf]
  · simp [vOrder]
  · norm_num

/-- C9 amended: every persisted order item records the product's base
price (excluding the variant modifier) as read during the request, the
items are exactly the snapshots of the cart lines, and the persisted
subtotal equals the sum over persisted items of
(recorded price + variant modifier) × quantity. -/
theorem claim9_priceSnapshot (uid : Nat) (cart : Cart) (db : ProductDb)
    (o : Order) (db2 : ProductDb) (c2 : Cart)
    (h : createOrder uid cart db = Sum.inr (o, db2, c2)) :
    o.items = cart.items.map (snapItem db)
      ∧ o.subtotal
          = (o.items.map
              (fun it => (it.price + modifierOf it.variant) * (it.quantity : ℚ))).sum := by
  unfold createOrder at h
  by_cases hc : cart.items = []
  · rw [if_pos hc] at h
    exact absurd h (by simp)
  · rw [if_neg hc] at h
    cases hpi : processItems db 0 [] cart.items with
    | inl e =>
      rw [hpi] at h
      exact absurd h (by simp)
    | inr res =>
      obtain ⟨db3, st, out⟩ := res
      rw [hpi] at h
      dsimp only at h
      rw [Sum.inr.injEq, Prod.mk.injEq] at h
      obtain ⟨ho, -⟩ := h
      obtain ⟨hout, hst⟩ := processItems_inr cart.items db 0 [] db3 st out hpi
      rw [← ho]
      dsimp only
      constructor
      · simpa using hout
      · rw [hst, hout]
        simp only [List.nil_append, List.reverse_nil, List.map_map, lineSum, zero_add]
        congr 1

/-- Witness for C9 (amended) at the concrete variant cart. -/
theorem claim9_priceSnapshot_witness :
    vOrder.items = vCart.items.map (snapItem vDb)
      ∧ vOrder.subtotal
          = (vOrder.items.map
              (fun it => (it.price + modifierOf it.variant) * (it.quantity : ℚ))).sum :=
  claim9_priceSnapshot 4 vCart vDb vOrder [(1, ⟨50, 4, none, 0, 0⟩)] ⟨[]⟩ createOrder_vCart

/-! ## C1: non-atomic stock decrement on failed order creation -/

/-- A two-product store: product `1` has stock `3`, product `2` has
stock `2`. -/
def naDb : ProductDb := [(1, ⟨50, 3, none, 0, 0⟩), (2, ⟨20, 2, none, 0, 0⟩)]

/-- A cart asking one unit of product `1` and five of product `2` (more
than its stock). -/
def naCart : Cart := ⟨[⟨10, 1, 1, none⟩, ⟨11, 2, 5, none⟩]⟩

/-- C1 evaluation: the order-creation request on `naCart` fails with 400
(insufficient stock for product `2`) and no order is persisted, yet
product `1`'s stock has already been decremented from `3` to `2` by the
time the failure occurs — the failed request mutates stock. -/
theorem claim1_stockMutatedOnFailure :
    createOrder 7 naCart naDb
        = Sum.inl (HttpError.badRequest,
            [(1, ⟨50, 2, none, 0, 0⟩), (2, ⟨20, 2, none, 0, 0⟩)])
      ∧ stockOf naDb 1 = some 3
      ∧ stockOf [(1, (⟨50, 2, none, 0, 0⟩ : Product)), (2, ⟨20, 2, none, 0, 0⟩)] 1
          = some 2 := by
  refine ⟨by rfl, by rfl, by rfl⟩

/-! ## C3: cancellation -/

/-- An order of two units of product `1` in status `confirmed`, owned by
user `3`. -/
def cOrder : Order := ⟨3, [⟨1, 2, none, 50⟩], 100, 0, 0, 8, 108, OrderStatus.confirmed⟩

/-- C3 as stated is false: the route rejects only the statuses
`cancelled`, `delivered` and `shipped`, so the owner successfully
cancels this `confirmed` (≠ `pending`) order. -/
theorem claim3_counterexample :
    cOrder.status ≠ OrderStatus.pending
      ∧ (cancelOrder 3 cOrder wDb).isRight = true := by
  refine ⟨by decide, by rfl⟩

/-- C3 amended: an owner's cancellation is rejected with the order and
stock untouched exactly when the status is `shipped`, `delivered` or
`cancelled`; from any other status it succeeds, sets the status to
`cancelled`, and adds back to each product's stock exactly the total
quantity the order items record for it. -/
theorem claim3_cancelOrder (uid : Nat) (o : Order) (db : ProductDb)
    (hown : o.user = uid) :
    ((o.status = OrderStatus.shipped ∨ o.status = OrderStatus.delivered
        ∨ o.status = OrderStatus.cancelled) →
      cancelOrder uid o db = Sum.inl (HttpError.badRequest, o, db))
    ∧ ((o.status ≠ OrderStatus.shipped ∧ o.status ≠ OrderStatus.delivered
        ∧ o.status ≠ OrderStatus.cancelled) →
      ∃ db2, cancelOrder uid o db = Sum.inr ({ o with status := OrderStatus.cancelled }, db2)
        ∧ ∀ pid, stockOf db2 pid = (stockOf db pid).map (fun s => s + totalQty o.items pid)) := by
  constructor
  · intro hbad
    unfold cancelOrder
    rw [if_neg (by simp [hown]), if_pos (by simp; tauto)]
  · intro hgood
    refine ⟨restoreStock db o.items, ?_, fun pid => stockOf_restoreStock o.items db pid⟩
    unfold cancelOrder
    rw [if_neg (by simp [hown]), if_neg (by simp; tauto)]

/-- Witness for C3 (amended): both branches at concrete inputs — the
`confirmed` order above is cancelled with stock restored, and the same
order in status `shipped` is rejected unchanged. -/
theorem claim3_cancelOrder_witness :
    cancelOrder 3 { cOrder with status := OrderStatus.shipped } wDb
        = Sum.inl (HttpError.badRequest, { cOrder with status := OrderStatus.shipped }, wDb)
      ∧ ∃ db2, cancelOrder 3 cOrder wDb
            = Sum.inr ({ cOrder with status := OrderStatus.cancelled }, db2)
          ∧ ∀ pid, stockOf db2 pid
              = (stockOf wDb pid).map (fun s => s + totalQty cOrder.items pid) := by
  constructor
  · exact (claim3_cancelOrder 3 { cOrder with status := OrderStatus.shipped } wDb rfl).1
      (Or.inl rfl)
  · exact (claim3_cancelOrder 3 cOrder wDb rfl).2 (by refine ⟨?_, ?_, ?_⟩ <;> decide)

/-! ## C4: status updates have no transition constraints -/

/-- C4: for an authorized caller (admin, or a merchant owning a product
of the order), a requested status inside the enumeration is assigned
whatever the current status is, and a status outside the enumeration is
rejected with 400. -/
theorem claim4_statusUpdate (role : Role) (uid : Nat) (o : Order)
    (db : ProductDb) (s : String)
    (hauth : role = Role.admin
      ∨ (role = Role.merchant ∧ hasMerchantProduct db o uid = true)) :
    (∀ st, parseStatus s = some st →
      updateOrderStatus role uid s (some o) db = Sum.inr { o with status := st })
    ∧ (s ∉ statusEnum →
      updateOrderStatus role uid s (some o) db = Sum.inl HttpError.badRequest)
    ∧ (s ∈ statusEnum ↔ (parseStatus s).isSome = true) := by
  have hrole : role ≠ Role.user := by
    rcases hauth with h | ⟨h, -⟩ <;> rw [h] <;> decide
  refine ⟨?_, ?_, (parseStatus_isSome_iff s).symm⟩
  · intro st hst
    unfold updateOrderStatus
    rw [if_neg hrole, hst]
    dsimp only
    rcases hauth with h | ⟨h, hm⟩
    · rw [if_neg (by simp [h])]
    · rw [if_neg (by simp [hm])]
  · intro hs
    have hnone : parseStatus s = none := by
      cases hps : parseStatus s with
      | none => rfl
      | some st =>
        exact absurd ((parseStatus_isSome_iff s).mp (by rw [hps]; rfl)) hs
    unfold updateOrderStatus
    rw [if_neg hrole, hnone]

/-- Witness for C4: an admin moves a `delivered` order back to
`pending` (no transition edge is enforced), and the string "paused" is
rejected. -/
theorem claim4_statusUpdate_witness :
    updateOrderStatus Role.admin 9 "pending"
        (some { cOrder with status := OrderStatus.delivered }) wDb
      = Sum.inr { cOrder with status := OrderStatus.pending }
    ∧ updateOrderStatus Role.admin 9 "paused"
        (some { cOrder with status := OrderStatus.delivered }) wDb
      = Sum.inl HttpError.badRequest := by
  constructor
  · exact (claim4_statusUpdate Role.admin 9 { cOrder with status := OrderStatus.delivered }
      wDb "pending" (Or.inl rfl)).1 OrderStatus.pending (by decide)
  · exact (claim4_statusUpdate Role.admin 9 { cOrder with status := OrderStatus.delivered }
      wDb "paused" (Or.inl rfl)).2.1 (by decide)

/-! ## C7: merchant ownership authorization on status updates -/

/-- C7: a merchant updating the status of an order none of whose items
references a product whose `merchant` field equals the merchant's id is
rejected with 403, while an admin's status update is never rejected with
403. -/
theorem claim7_merchantOwnership (uid : Nat) (o : Order) (db : ProductDb)
    (s : String) (st : OrderStatus) (hs : parseStatus s = some st)
    (hnone : ∀ it ∈ o.items, ∀ p, findById db it.product = some p →
      p.merchant ≠ some uid) :
    updateOrderStatus Role.merchant uid s (some o) db = Sum.inl HttpError.forbidden
    ∧ (∀ uid2 s2 o2 db2,
        updateOrderStatus Role.admin uid2 s2 (some o2) db2 ≠ Sum.inl HttpError.forbidden) := by
  constructor
  · have hm : hasMerchantProduct db o uid = false := by
      unfold hasMerchantProduct
      rw [List.any_eq_false]
      intro it hit
      cases hfind : findById db it.product with
      | none => simp
      | some p =>
        have := hnone it hit p hfind
        simpa using this
    unfold updateOrderStatus
    rw [if_neg (by decide), hs]
    dsimp only
    rw [if_pos (by simp [hm])]
  · intro uid2 s2 o2 db2
    unfold updateOrderStatus
    rw [if_neg (by decide)]
    cases parseStatus s2 with
    | none => simp
    | some st2 =>
      dsimp only
      rw [if_neg (by simp)]
      simp

/-- Witness for C7: merchant `5` may not update an order whose only
product belongs to merchant `9`. -/
theorem claim7_merchantOwnership_witness :
    updateOrderStatus Role.merchant 5 "shipped"
        (some cOrder) [(1, ⟨50, 5, some 9, 0, 0⟩)]
      = Sum.inl HttpError.forbidden := by
  refine (claim7_merchantOwnership 5 cOrder [(1, ⟨50, 5, some 9, 0, 0⟩)]
    "shipped" OrderStatus.shipped (by decide) ?_).1
  intro it hit p hfind
  have hprod : it.product = 1 := by
    rcases List.mem_singleton.mp (by simpa [cOrder] using hit) with h
    rw [h]
  rw [hprod] at hfind
  have hp : p = ⟨50, 5, some 9, 0, 0⟩ := by
    have : findById [(1, (⟨50, 5, some 9, 0, 0⟩ : Product))] 1
        = some ⟨50, 5, some 9, 0, 0⟩ := by rfl
    rw [this] at hfind
    exact (Option.some.injEq _ _ ▸ hfind).symm
  rw [hp]
  decide

/-! ## C5: the cart stock checks -/

/-- A store with product `1` at stock `6`. -/
def sDb : ProductDb := [(1, ⟨50, 6, none, 0, 0⟩)]

/-- A cart already holding five units of product `1`. -/
def sCart : Cart := ⟨[⟨0, 1, 5, none⟩]⟩

/-- C5 as stated is false: adding five more units of product `1`
(stock 6) to a cart already holding five merges to a line of quantity
10 — the add handler checks only the requested increment against stock,
so the post-merge line exceeds the stock read during the request. -/
theorem claim5_counterexample :
    addItem sDb sCart 1 5 none 9 = Sum.inr ⟨[⟨0, 1, 10, none⟩]⟩
      ∧ stockOf sDb 1 = some 6
      ∧ ¬ ((10 : ℤ) ≤ 6) := by
  refine ⟨by rfl, by rfl, by decide⟩

/-- `cart.items.id` after the quantity rewrite: the found line is the
old line with its quantity replaced. -/
theorem findLine_setQtyFirst (itemId q : Nat) (l : List CartItem) :
    findLine itemId (setQtyFirst itemId q l)
      = (findLine itemId l).map (fun it => { it with quantity := q }) := by
  induction l with
  | nil => rfl
  | cons it rest ih =>
    by_cases h : it.itemId = itemId
    · simp [findLine, setQtyFirst, h]
    · simp [findLine, setQtyFirst, h, ih]

/-- C5 amended: a successful quantity update leaves the updated line
with the requested quantity, which the handler checked against the
stock of the line's product as read during the request; a successful
add checks only the requested quantity against stock (so a merged
line's total may exceed it). -/
theorem claim5_stockCheck (db : ProductDb) (cart : Cart) (itemId q pid n : Nat)
    (v : Option Variant) :
    (∀ c2, updateItem db cart itemId q = Sum.inr c2 →
      ∃ it p, findLine itemId cart.items = some it
        ∧ findById db it.product = some p
        ∧ (q : ℤ) ≤ p.stock
        ∧ c2.items = setQtyFirst itemId q cart.items
        ∧ findLine itemId c2.items = some { it with quantity := q })
    ∧ (∀ c2, addItem db cart pid q v n = Sum.inr c2 →
      ∃ p, findById db pid = some p ∧ (q : ℤ) ≤ p.stock) := by
  constructor
  · intro c2 h
    unfold updateItem at h
    by_cases hq : q < 1
    · rw [if_pos hq] at h
      exact absurd h (by simp)
    · rw [if_neg hq] at h
      cases hfl : findLine itemId cart.items with
      | none => rw [hfl] at h; exact absurd h (by simp)
      | some it =>
        rw [hfl] at h
        dsimp only at h
        cases hfp : findById db it.product with
        | none => rw [hfp] at h; exact absurd h (by simp)
        | some p =>
          rw [hfp] at h
          dsimp only at h
          by_cases hs : p.stock < (q : ℤ)
          · rw [if_pos hs] at h
            exact absurd h (by simp)
          · rw [if_neg hs] at h
            rw [Sum.inr.injEq] at h
            refine ⟨it, p, by simp [hfl], by simp [hfp], by omega, by rw [← h], ?_⟩
            rw [← h]
            dsimp only
            rw [findLine_setQtyFirst, hfl]
            rfl
  · intro c2 h
    unfold addItem at h
    by_cases hq : q < 1
    · rw [if_pos hq] at h
      exact absurd h (by simp)
    · rw [if_neg hq] at h
      cases hfp : findById db pid with
      | none => rw [hfp] at h; exact absurd h (by simp)
      | some p =>
        rw [hfp] at h
        dsimp only at h
        by_cases hs : p.stock < (q : ℤ)
        · rw [if_pos hs] at h
          exact absurd h (by simp)
        · exact ⟨p, rfl, by omega⟩

/-- Witness for C5 (amended): updating the five-unit line to four units
succeeds and leaves the line at four, within stock. -/
theorem claim5_stockCheck_witness :
    ∃ it p, findLine 0 sCart.items = some it
      ∧ findById sDb it.product = some p
      ∧ (4 : ℤ) ≤ p.stock
      ∧ (⟨[⟨0, 1, 4, none⟩]⟩ : Cart).items = setQtyFirst 0 4 sCart.items
      ∧ findLine 0 (⟨[⟨0, 1, 4, none⟩]⟩ : Cart).items
          = some { (⟨0, 1, 5, none⟩ : CartItem) with quantity := 4 } := by
  have h := (claim5_stockCheck sDb sCart 0 4 1 9 none).1 ⟨[⟨0, 1, 4, none⟩]⟩ (by rfl)
  obtain ⟨it, p, h1, h2, h3, h4, h5⟩ := h
  have hit : it = ⟨0, 1, 5, none⟩ := by
    have : findLine 0 sCart.items = some ⟨0, 1, 5, none⟩ := by rfl
    rw [this] at h1
    exact (Option.some.injEq _ _ ▸ h1).symm
  subst hit
  exact ⟨_, p, h1, h2, h3, h4, h5⟩

/-! ## C6: merging equal (product, variant) pairs -/

/-- C6: two successful adds naming the same (product, variant) pair,
against a cart with no line for that pair, produce exactly one line for
the pair carrying the summed quantity; and the no-two-lines-per-key
invariant is preserved. -/
theorem claim6_mergeSameKey (db db2 : ProductDb) (c c1 c2 : Cart)
    (pid q1 q2 n1 n2 : Nat) (v : Variant)
    (hno : ∀ it ∈ c.items, lineKey it ≠ (pid, some v.vid))
    (h1 : addItem db c pid q1 (some v) n1 = Sum.inr c1)
    (h2 : addItem db2 c1 pid q2 (some v) n2 = Sum.inr c2) :
    ((c2.items.filter (fun it => lineKey it == (pid, some v.vid))).map CartItem.quantity)
        = [q1 + q2]
    ∧ ((c.items.map lineKey).Nodup → (c2.items.map lineKey).Nodup) := by
  have hnomatch : ∀ it ∈ c.items,
      matchesLine pid ((some v).map Variant.vid) it = false := by
    intro it hit
    have := hno it hit
    simp only [Option.map_some']
    by_cases hm : matchesLine pid (some v.vid) it = true
    · exact absurd ((matchesLine_some_iff pid v.vid it).mp hm) this
    · simpa using hm
  have hc1 : c1.items = c.items ++ [⟨n1, pid, q1, some v⟩] := by
    unfold addItem at h1
    by_cases hq : q1 < 1
    · rw [if_pos hq] at h1
      exact absurd h1 (by simp)
    · rw [if_neg hq] at h1
      cases hfp : findById db pid with
      | none => rw [hfp] at h1; exact absurd h1 (by simp)
      | some p =>
        rw [hfp] at h1
        dsimp only at h1
        by_cases hs : p.stock < (q1 : ℤ)
        · rw [if_pos hs] at h1
          exact absurd h1 (by simp)
        · rw [if_neg hs, Sum.inr.injEq] at h1
          rw [← h1]
          exact mergeOrAppend_no_match pid q1 (some v) n1 c.items hnomatch
  have hc2 : c2.items = c.items ++ [⟨n1, pid, q1 + q2, some v⟩] := by
    unfold addItem at h2
    by_cases hq : q2 < 1
    · rw [if_pos hq] at h2
      exact absurd h2 (by simp)
    · rw [if_neg hq] at h2
      cases hfp : findById db2 pid with
      | none => rw [hfp] at h2; exact absurd h2 (by simp)
      | some p =>
        rw [hfp] at h2
        dsimp only at h2
        by_cases hs : p.stock < (q2 : ℤ)
        · rw [if_pos hs] at h2
          exact absurd h2 (by simp)
        · rw [if_neg hs, Sum.inr.injEq] at h2
          rw [← h2, hc1]
          have := mergeOrAppend_first_match pid q2 (some v) n2 c.items []
            ⟨n1, pid, q1, some v⟩ hnomatch
            (by simp [matchesLine])
          simpa using this
  constructor
  · rw [hc2, List.filter_append]
    have hfilter : c.items.filter (fun it => lineKey it == (pid, some v.vid)) = [] := by
      rw [List.filter_eq_nil_iff]
      intro it hit
      simpa using hno it hit
    rw [hfilter]
    simp [lineKey]
  · intro hnd
    rw [hc2, List.map_append, List.nodup_append]
    refine ⟨hnd, by simp, ?_⟩
    intro k hk
    simp only [List.map_cons, List.map_nil, lineKey, List.mem_singleton]
    intro hkey
    rcases List.mem_map.mp hk with ⟨it, hit, hkit⟩
    apply hno it hit
    rw [hkit, hkey]
    simp

/-- Witness for C6: adding (product 1, variant 7) twice to the empty
cart yields the single merged line of quantity 5. -/
theorem claim6_mergeSameKey_witness :
    (((⟨[⟨0, 1, 5, some ⟨7, 10⟩⟩]⟩ : Cart).items.filter
        (fun it => lineKey it == (1, some 7))).map CartItem.quantity) = [2 + 3]
    ∧ (((⟨[]⟩ : Cart).items.map lineKey).Nodup →
        ((⟨[⟨0, 1, 5, some ⟨7, 10⟩⟩]⟩ : Cart).items.map lineKey).Nodup) := by
  exact claim6_mergeSameKey sDb sDb ⟨[]⟩ ⟨[⟨0, 1, 2, some ⟨7, 10⟩⟩]⟩
    ⟨[⟨0, 1, 5, some ⟨7, 10⟩⟩]⟩ 1 2 3 0 9 ⟨7, 10⟩
    (by intro it hit; simp at hit) (by rfl) (by rfl)

/-! ## C10: an absent request variant merges into the first line of the
product -/

/-- C10: when the add request omits the variant and the cart already
holds a line for the product — even one carrying a variant — the
requested quantity is merged into the first such line and no new line
is created: the predicate treats an absent variant as matching every
existing variant of the product. -/
theorem claim10_absentVariantMerge (db : ProductDb) (c : Cart) (pid q n : Nat)
    (p : Product) (hp : findById db pid = some p) (hq : 1 ≤ q)
    (hstock : (q : ℤ) ≤ p.stock)
    (pre post : List CartItem) (it : CartItem)
    (hsplit : c.items = pre ++ it :: post)
    (hpre : ∀ x ∈ pre, x.product ≠ pid)
    (hit : it.product = pid) :
    addItem db c pid q none n
      = Sum.inr ⟨pre ++ { it with quantity := it.quantity + q } :: post⟩ := by
  unfold addItem
  rw [if_neg (by omega), hp]
  dsimp only
  rw [if_neg (by omega), hsplit]
  rw [mergeOrAppend_first_match pid q none n pre post it ?_ ?_]
  · intro x hx
    have := hpre x hx
    simp [matchesLine, this]
  · simp [matchesLine, hit]

/-- Witness for C10: the cart's only line carries variant 7, the
request has no variant, and the quantity is merged into that line. -/
theorem claim10_absentVariantMerge_witness :
    addItem sDb ⟨[⟨0, 1, 5, some ⟨7, 10⟩⟩]⟩ 1 1 none 9
      = Sum.inr ⟨[⟨0, 1, 6, some ⟨7, 10⟩⟩]⟩ := by
  have h := claim10_absentVariantMerge sDb ⟨[⟨0, 1, 5, some ⟨7, 10⟩⟩]⟩ 1 1 9
    ⟨50, 6, none, 0, 0⟩ (by rfl) (by decide) (by decide)
    [] [] ⟨0, 1, 5, some ⟨7, 10⟩⟩ (by rfl) (by intro x hx; simp at hx) (by rfl)
  simpa using h

/-! ## C8: review uniqueness and the product rating aggregate -/

/-- C8: a second review for the same (product, user) pair is rejected
with 400 and nothing inserted; every successful create, update or
delete leaves the touched product's rating equal to the rounded mean of
its reviews and its reviewCount equal to their number, with rating 0
and count 0 when no review remains (in particular after deleting the
only review). -/
theorem claim8_reviewAggregate (db : ProductDb) (reviews : List Review)
    (uid pid rating nid : Nat) (p : Product)
    (hp : findById db pid = some p) (hr : 1 ≤ rating ∧ rating ≤ 5) :
    ((∃ r ∈ reviews, r.product = pid ∧ r.user = uid) →
      createReview db reviews uid pid rating nid = Sum.inl HttpError.badRequest)
    ∧ (∀ rs2 db2, createReview db reviews uid pid rating nid = Sum.inr (rs2, db2) →
      aggCorrect db2 rs2 pid)
    ∧ (∀ rid r rs2 db2, findReview rid reviews = some r →
      updateReview db reviews uid rid rating = Sum.inr (rs2, db2) →
      aggCorrect db2 rs2 r.product)
    ∧ (∀ rid r rs2 db2, findReview rid reviews = some r →
      deleteReview db reviews uid rid = Sum.inr (rs2, db2) →
      aggCorrect db2 rs2 r.product
      ∧ (rs2.filter (fun x => x.product == r.product) = [] →
        ∀ p2, findById db2 r.product = some p2 → p2.rating = 0 ∧ p2.reviewCount = 0)) := by
  have hnotbad : ¬ (rating < 1 ∨ 5 < rating) := by omega
  refine ⟨?_, ?_, ?_, ?_⟩
  · rintro ⟨r, hmem, hprod, huser⟩
    unfold createReview
    rw [if_neg hnotbad, hp]
    dsimp only
    rw [if_pos ?_]
    rw [List.any_eq_true]
    exact ⟨r, hmem, by simp [hprod, huser]⟩
  · intro rs2 db2 h
    unfold createReview at h
    rw [if_neg hnotbad, hp] at h
    dsimp only at h
    by_cases hdup : reviews.any (fun r => r.product == pid && r.user == uid) = true
    · rw [if_pos hdup] at h
      exact absurd h (by simp)
    · rw [if_neg hdup] at h
      rw [Sum.inr.injEq, Prod.mk.injEq] at h
      obtain ⟨hrs, hdb⟩ := h
      rw [← hdb, ← hrs]
      exact updateProductRating_aggCorrect db _ pid
  · intro rid r rs2 db2 hfr h
    unfold updateReview at h
    rw [if_neg hnotbad, hfr] at h
    dsimp only at h
    by_cases howner : r.user ≠ uid
    · rw [if_pos howner] at h
      exact absurd h (by simp)
    · rw [if_neg howner] at h
      rw [Sum.inr.injEq, Prod.mk.injEq] at h
      obtain ⟨hrs, hdb⟩ := h
      rw [← hdb, ← hrs]
      exact updateProductRating_aggCorrect db _ r.product
  · intro rid r rs2 db2 hfr h
    unfold deleteReview at h
    rw [hfr] at h
    dsimp only at h
    by_cases howner : r.user ≠ uid
    · rw [if_pos howner] at h
      exact absurd h (by simp)
    · rw [if_neg howner] at h
      rw [Sum.inr.injEq, Prod.mk.injEq] at h
      obtain ⟨hrs, hdb⟩ := h
      have hagg : aggCorrect db2 rs2 r.product := by
        rw [← hdb, ← hrs]
        exact updateProductRating_aggCorrect db _ r.product
      refine ⟨hagg, ?_⟩
      intro hempty p2 hp2
      exact (hagg p2 hp2).1 hempty

/-- Witness for C8: with product `1` already reviewed by user `4`, a
second review by user `4` is rejected; deleting that only review leaves
the product's aggregate correct (rating 0, count 0). -/
theorem claim8_reviewAggregate_witness :
    createReview wDb [⟨0, 1, 4, 5⟩] 4 1 3 1 = Sum.inl HttpError.badRequest
    ∧ aggCorrect [(1, ⟨50, 5, none, 0, 0⟩)] [] 1
    ∧ (∀ p2, findById [(1, (⟨50, 5, none, 0, 0⟩ : Product))] 1 = some p2 →
        p2.rating = 0 ∧ p2.reviewCount = 0) := by
  have h := claim8_reviewAggregate wDb [⟨0, 1, 4, 5⟩] 4 1 3 1
    ⟨50, 5, none, 0, 0⟩ (by rfl) (by omega)
  have hdel := h.2.2.2 0 ⟨0, 1, 4, 5⟩ [] [(1, ⟨50, 5, none, 0, 0⟩)] (by rfl) (by rfl)
  exact ⟨h.1 ⟨⟨0, 1, 4, 5⟩, by simp, rfl, rfl⟩, hdel.1, hdel.2 (by rfl)⟩

end Lexury
